import Mathlib

set_option maxRecDepth 8000

set_option allowUnsafeReducibility true

attribute [local semireducible] Rat.add Rat.mul Rat.inv Rat.sub Rat.ofScientific

/-!
Verification development for the voice analysis pipeline:
a shallow embedding of the decode fallback chain and manual WAV parser
(audio_converter.py, function load_audio_safe), the preprocessing pipeline
(audio_preprocessor.py), the feature extractor (feature_extractor.py) and
the prediction validation step (app.py), together with theorems about the
specified behaviour.

Bytes are modelled as natural numbers (values below 256 where decoded),
audio samples as rational numbers.  External library decoders
(librosa, soundfile, scipy) are modelled as abstract function parameters;
everything the repository code itself computes is embedded concretely.
-/

/-- Bytes of the ASCII tag RIFF checked by the manual WAV parse. -/
def riffTag : List Nat := [82, 73, 70, 70]

/-- Bytes of the ASCII tag WAVE checked by the manual WAV parse. -/
def waveTag : List Nat := [87, 65, 86, 69]

/-- Bytes of the four character chunk tag fmt followed by a space. -/
def fmtTag : List Nat := [102, 109, 116, 32]

/-- Bytes of the four character chunk tag data. -/
def dataTag : List Nat := [100, 97, 116, 97]

/-- Little-endian decoding of a byte list, as np.frombuffer does for
uint16 and uint32 values read by the manual WAV parse. -/
def leDecode (bs : List Nat) : Nat := bs.foldr (fun b acc => b + 256 * acc) 0

/-- Little-endian encoding of a value in two bytes, used to build WAV inputs. -/
def le16 (n : Nat) : List Nat := [n % 256, n / 256 % 256]

/-- Little-endian encoding of a value in four bytes, used to build WAV inputs. -/
def le32 (n : Nat) : List Nat := [n % 256, n / 256 % 256, n / 65536 % 256, n / 16777216 % 256]

/-- Signed 16-bit sample from two little-endian bytes, as np.frombuffer
reads dtype int16 (two's complement). -/
def int16OfPair (b0 b1 : Nat) : Int :=
  let v := b0 + 256 * b1
  if v < 32768 then (v : Int) else (v : Int) - 65536

/-- The data chunk payload as normalized samples: consecutive byte pairs read
as signed little-endian int16 and divided by 32768, exactly the line
np.frombuffer(audio_data, dtype=np.int16).astype(np.float32) / 32768.0
of the manual WAV parse.  An odd trailing byte never occurs at use sites
because the parser rejects odd payload lengths first. -/
def pcmQ (d : List Nat) : List ℚ :=
  (List.range (d.length / 2)).map fun i =>
    ((int16OfPair (d.getD (2 * i) 0) (d.getD (2 * i + 1) 0) : ℤ) : ℚ) / 32768

/-- Row means of audio.reshape(-1, c) followed by np.mean(..., axis=1):
consecutive groups of c samples averaged, used to collapse interleaved
channels to mono.  Callers guard that c divides the sample count. -/
def meanRows (c : Nat) (xs : List ℚ) : List ℚ :=
  (List.range (xs.length / c)).map fun i => (((xs.drop (i * c)).take c).sum) / (c : ℚ)

/-- Decoding of the data chunk payload in the manual WAV parse:
np.frombuffer requires an even byte count, reshape(-1, ch) requires the
sample count to be divisible by the channel count, and multi channel data
is averaged to mono. -/
def dataResult (ch rate : Nat) (ad : List Nat) : Except String (List ℚ × Nat) :=
  if ad.length % 2 = 0 then
    let samples := pcmQ ad
    if 1 < ch then
      if samples.length % ch = 0 then .ok (meanRows ch samples, rate)
      else .error "cannot reshape data into channels"
    else .ok (samples, rate)
  else .error "data buffer size is not a multiple of int16"

/-- Chunk loop of the manual WAV parse of load_audio_safe.  Each iteration
reads a 4 byte tag (failing like the source when fewer than 4 bytes remain),
a 4 byte little-endian length (np.frombuffer fails unless exactly 4 bytes
arrive), then handles fmt (channel count at payload offset 2, sample rate at
offset 4, both failing when the payload read is too short), returns at data,
and skips any other chunk by exactly its payload length.  Reads past the end
of the stream return the bytes that remain, as Python file reads do.  The
fuel argument only bounds the loop; the top level entry point supplies fuel
larger than the number of iterations ever possible, so the out of fuel
branch is unreachable from loadManualWav. -/
def parseChunksF : Nat → List Nat → Nat → Nat → Except String (List ℚ × Nat)
  | 0, _, _, _ => .error "out of fuel"
  | fuel + 1, bs, ch, rate =>
    let tag := bs.take 4
    if tag.length < 4 then .error "Truncated WAV file"
    else
      let r1 := bs.drop 4
      if (r1.take 4).length = 4 then
        let sz := leDecode (r1.take 4)
        let r2 := r1.drop 4
        if tag = fmtTag then
          let fd := r2.take sz
          if ((fd.drop 2).take 2).length = 2 then
            if ((fd.drop 4).take 4).length = 4 then
              parseChunksF fuel (r2.drop sz) (leDecode ((fd.drop 2).take 2))
                (leDecode ((fd.drop 4).take 4))
            else .error "fmt payload too short for sample rate"
          else .error "fmt payload too short for channel count"
        else if tag = dataTag then dataResult ch rate (r2.take sz)
        else parseChunksF fuel (r2.drop sz) ch rate
      else .error "truncated chunk size"

/-- Manual WAV parse, the last resort strategy of load_audio_safe:
checks the RIFF magic, reads the 4 byte header size field, checks the WAVE
magic, then iterates chunks with default channel count 1 and default sample
rate 16000 until a data chunk is decoded. -/
def loadManualWav (bs : List Nat) : Except String (List ℚ × Nat) :=
  if bs.take 4 = riffTag then
    if ((bs.drop 4).take 4).length = 4 then
      if (bs.drop 8).take 4 = waveTag then
        parseChunksF (bs.length + 1) (bs.drop 12) 1 16000
      else .error "Invalid WAV file"
    else .error "truncated RIFF size field"
  else .error "Not a WAV file"

/-- Encoding of one RIFF chunk: 4 byte tag, 4 byte little-endian payload
length, payload. -/
def chunkBytes (tag payload : List Nat) : List Nat := tag ++ le32 payload.length ++ payload

/-- Encoding of a list of RIFF chunks in sequence. -/
def chunksBytes : List (List Nat × List Nat) → List Nat
  | [] => []
  | (t, p) :: rest => chunkBytes t p ++ chunksBytes rest

/-- Junk chunk hypotheses: a 4 byte tag that is neither fmt nor data, with a
payload whose length fits the 4 byte length field. -/
def JunkChunks (cs : List (List Nat × List Nat)) : Prop :=
  ∀ c ∈ cs, (c.1 : List Nat).length = 4 ∧ c.1 ≠ fmtTag ∧ c.1 ≠ dataTag ∧
    (c.2 : List Nat).length < 4294967296

instance (cs : List (List Nat × List Nat)) : Decidable (JunkChunks cs) :=
  List.decidableBAll _ cs

/-- Mono collapse of a decoded data payload with channel count c, exactly as
the manual WAV parse produces it. -/
def wavSamples (c : Nat) (d : List Nat) : List ℚ :=
  if 1 < c then meanRows c (pcmQ d) else pcmQ d

/-- Mean of a list of rationals, np.mean on a one dimensional array. -/
def meanQ (xs : List ℚ) : ℚ := xs.sum / (xs.length : ℚ)

instance {ε α : Type} [DecidableEq ε] [DecidableEq α] : DecidableEq (Except ε α)
  | .ok a, .ok b => decidable_of_iff (a = b) (by simp)
  | .ok _, .error _ => isFalse (by simp)
  | .error _, .ok _ => isFalse (by simp)
  | .error a, .error b => decidable_of_iff (a = b) (by simp)

/-- Multi channel or mono payload as returned by an abstract library decoder
(soundfile or scipy): either a one dimensional signal or rows of per channel
samples, mirroring the shape test len(audio.shape) > 1 in the source. -/
inductive SfData
  | mono (xs : List ℚ)
  | multi (rows : List (List ℚ))
  deriving DecidableEq

/-- Mono collapse applied by the soundfile and scipy branches of
load_audio_safe: rows are averaged when the data is multi channel.
Integer to float rescaling done by those branches is folded into the
abstract decoder, which already yields rationals. -/
def toMono : SfData → List ℚ
  | .mono xs => xs
  | .multi rows => rows.map meanQ

/-- Abstract external decoders used by load_audio_safe, in its priority
order: librosa.load (which alone receives the sr and duration arguments),
soundfile.read and scipy.io.wavfile.read.  Each failure carries the raw
exception text, which the chain discards. -/
structure LibDecoders where
  librosaLoad : List Nat → Option Nat → Option ℚ → Except String (List ℚ × Nat)
  sfRead : List Nat → Except String (SfData × Nat)
  scipyRead : List Nat → Except String (SfData × Nat)

/-- Aggregated failure raised when every decode strategy fails, carrying the
byte size of the input and the list of nominally supported formats, as in
the final raise of load_audio_safe. -/
structure AggregateError where
  byteSize : Nat
  formats : List String
  deriving DecidableEq

/-- Format list named by the aggregated decode error message. -/
def supportedFormats : List String := ["WAV", "MP3", "FLAC", "OGG"]

/-- Decode fallback chain of load_audio_safe with an invocation trace:
strategies are tried in the fixed order librosa, soundfile, scipy, manual
WAV parse, stopping at the first success; the second component lists the
strategies that were invoked.  When every strategy fails the chain reports
the aggregated error naming the input byte size and the supported formats,
never any of the underlying decoder error strings. -/
def loadAudioSafeT (L : LibDecoders) (bs : List Nat) (sr : Option Nat) (duration : Option ℚ) :
    Except AggregateError (List ℚ × Nat) × List Nat :=
  match L.librosaLoad bs sr duration with
  | .ok res => (.ok res, [1])
  | .error _ =>
    match L.sfRead bs with
    | .ok d => (.ok (toMono d.1, d.2), [1, 2])
    | .error _ =>
      match L.scipyRead bs with
      | .ok d => (.ok (toMono d.1, d.2), [1, 2, 3])
      | .error _ =>
        match loadManualWav bs with
        | .ok res => (.ok res, [1, 2, 3, 4])
        | .error _ => (.error ⟨bs.length, supportedFormats⟩, [1, 2, 3, 4])

/-- Decode fallback chain of load_audio_safe, result only. -/
def loadAudioSafe (L : LibDecoders) (bs : List Nat) (sr : Option Nat) (duration : Option ℚ) :
    Except AggregateError (List ℚ × Nat) :=
  (loadAudioSafeT L bs sr duration).1

/-- Library decoders on an input none of the three libraries can decode:
each raises, which the chain sees as a failed strategy.  This models, for
example, a zero byte upload or a WAV file whose fmt chunk carries a format
code the libraries reject. -/
def failAllDecoders : LibDecoders where
  librosaLoad := fun _ _ _ => .error "librosa raised"
  sfRead := fun _ => .error "soundfile raised"
  scipyRead := fun _ => .error "scipy raised"

/-- Bytes of a WAV file with a nonstandard fmt chunk (format code 0, which
the audio libraries reject) declaring sample rate 1 Hz, one channel, and a
data chunk of 22 bytes, that is 11 seconds of audio at the stated rate. -/
def longWavBytes : List Nat :=
  riffTag ++ (le32 36 ++ (waveTag ++ (chunkBytes fmtTag [0, 0, 1, 0, 1, 0, 0, 0] ++
    (chunkBytes dataTag (List.replicate 22 0) ++ []))))

/-- Abstract library primitives used by audio_preprocessor.py: the
band-limited resampler librosa.resample and the silence trimmer
librosa.effects.trim (called with top_db = 20).  A failure models the
exception caught by the corresponding wrapper, which then degrades to a
no-op. -/
structure PreprocLibs where
  resample : List ℚ → Nat → Nat → Except String (List ℚ)
  trim : List ℚ → ℚ → Except String (List ℚ)

/-- Maximum absolute sample value, np.max(np.abs(audio)); the value 0 on an
empty signal reproduces the behaviour of normalize_audio there, whose
np.max raises and whose except branch returns the signal unchanged. -/
def maxAbs (xs : List ℚ) : ℚ := (xs.map (fun x => |x|)).foldr max 0

/-- resample_audio: resample to the target rate when the rates differ,
keeping the original signal and rate when the resampler raises. -/
def resample_audio (P : PreprocLibs) (audio : List ℚ) (originalSr targetSr : Nat) :
    List ℚ × Nat :=
  if originalSr ≠ targetSr then
    match P.resample audio originalSr targetSr with
    | .ok a => (a, targetSr)
    | .error _ => (audio, originalSr)
  else (audio, targetSr)

/-- normalize_audio: divide by the peak absolute value unless it is not
positive, in which case the signal is returned unchanged. -/
def normalize_audio (audio : List ℚ) : List ℚ :=
  if 0 < maxAbs audio then audio.map (fun x => x / maxAbs audio) else audio

/-- trim_silence: librosa.effects.trim with the given top_db, returning the
input unchanged when the library raises. -/
def trim_silence (P : PreprocLibs) (audio : List ℚ) (topDb : ℚ) : List ℚ :=
  match P.trim audio topDb with
  | .ok a => a
  | .error _ => audio

/-- preprocess_audio: resample, normalize, trim, then pad with zeros at the
end when the result is shorter than half a second at the target rate
(min_length = int(target_sr * 0.5)).  Every stage catches its own errors,
so the outer except branch of the source is unreachable. -/
def preprocess_audio (P : PreprocLibs) (audio : List ℚ) (sr targetSr : Nat) :
    List ℚ × Nat :=
  let r := resample_audio P audio sr targetSr
  let a2 := normalize_audio r.1
  let a3 := trim_silence P a2 20
  let minLength := targetSr / 2
  let a4 := if a3.length < minLength then a3 ++ List.replicate (minLength - a3.length) 0 else a3
  (a4, r.2)

/-- Scaler and classifier handle as loaded by app.py: the expected input
width scaler.n_features_in_, the scaler transform, and the classifier
functions model.predict and model.predict_proba (probability pair for the
healthy and affected classes). -/
structure ScalerModel where
  nFeaturesIn : Nat
  transform : List ℚ → List ℚ
  predictLabel : List ℚ → Nat
  predictProba : List ℚ → ℚ × ℚ

/-- Failure outcomes of the feature validation part of predict in app.py,
identified by the distinct raise sites of the source. -/
inductive PredictError
  | invalidFeatures
  | featureMismatch (got expected : Nat)
  deriving DecidableEq

/-- Successful outcome of predict: class label, risk score and the two class
probabilities scaled to percentages (response rounding is presentation and
is not modelled). -/
structure PredictOutcome where
  prediction : Nat
  riskScore : ℚ
  probHealthy : ℚ
  probParkinsons : ℚ
  deriving DecidableEq

/-- Validation and scoring part of predict in app.py, from the point where
the feature vector exists: reject an empty or all-zero vector, then reject a
vector whose length differs from scaler.n_features_in_, and only then invoke
the scaler and the classifier.  The second and third components record
whether the scaler, respectively the classifier, were invoked. -/
def predictCore (sm : ScalerModel) (features : List ℚ) :
    Except PredictError PredictOutcome × Bool × Bool :=
  if features.length = 0 ∨ features.all (fun x => x = 0) then
    (.error .invalidFeatures, false, false)
  else if features.length ≠ sm.nFeaturesIn then
    (.error (.featureMismatch features.length sm.nFeaturesIn), false, false)
  else
    let scaled := sm.transform features
    let pred := sm.predictLabel scaled
    let proba := sm.predictProba scaled
    (.ok ⟨pred, proba.2 * 100, proba.1 * 100, proba.2 * 100⟩, true, true)

/-- librosa.util.frame with the given frame and hop lengths: none when the
signal is shorter than one frame (librosa raises there, which callers
catch), otherwise the overlapping frames starting at multiples of the hop
length. -/
def frameSignal (audio : List ℚ) (frameLength hop : Nat) : Option (List (List ℚ)) :=
  if audio.length < frameLength then none
  else some ((List.range (1 + (audio.length - frameLength) / hop)).map
    fun i => (audio.drop (i * hop)).take frameLength)

/-- Autocorrelation of a frame at a nonnegative lag, the entry at index
length - 1 + lag of np.correlate(frame, frame, mode=full), that is the sum
of frame i * frame (i + lag) over the overlap. -/
def autocorrAt (x : List ℚ) (lag : Nat) : ℚ :=
  ∑ i ∈ Finset.range (x.length - lag), x.getD i 0 * x.getD (i + lag) 0

/-- The slice [a : b] of the nonnegative-lag half of the full
autocorrelation, autocorr[len // 2 :][a : b] in the source: values at lags
a up to min b (frame length) - 1. -/
def autocorrSlice (x : List ℚ) (a b : Nat) : List ℚ :=
  (List.range (min b x.length - a)).map fun j => autocorrAt x (a + j)

/-- Scan of the plateau to the right of a rising edge in the scipy local
maxima search: the first index at or after j that reaches the last valid
position or carries a value different from v.  The fuel only bounds the
scan; callers pass the signal length, which always suffices. -/
def plateauEnd (x : List ℚ) (v : ℚ) : Nat → Nat → Nat
  | j, 0 => j
  | j, fuel + 1 =>
    if j < x.length - 1 ∧ x.getD j 0 = v then plateauEnd x v (j + 1) fuel else j

/-- Main loop of the scipy local maxima search over interior indices:
a strict rise into a sample or plateau followed by a strict fall yields the
plateau midpoint (left + right) / 2; the first and last samples are never
maxima.  The fuel only bounds the loop; callers pass the signal length. -/
def lmLoop (x : List ℚ) : Nat → Nat → List Nat
  | _, 0 => []
  | i, fuel + 1 =>
    if i < x.length - 1 then
      if x.getD (i - 1) 0 < x.getD i 0 then
        let j := plateauEnd x (x.getD i 0) (i + 1) x.length
        if x.getD j 0 < x.getD i 0 then
          ((i + (j - 1)) / 2) :: lmLoop x (j + 1) fuel
        else lmLoop x (i + 1) fuel
      else lmLoop x (i + 1) fuel
    else []

/-- Local maxima of a signal as scipy find_peaks selects candidates. -/
def localMaxima (x : List ℚ) : List Nat := lmLoop x 1 x.length

/-- scipy find_peaks with height 0: local maxima whose value is at least
zero. -/
def findPeaksH0 (x : List ℚ) : List Nat :=
  (localMaxima x).filter (fun p => 0 ≤ x.getD p 0)

/-- Per frame pitch candidate of _extract_f0_cached: the first peak of
find_peaks(autocorr[int(sr/400) : int(sr/50)], height=0) gives the lag
peaks[0] + int(sr/400) and the candidate frequency sr / lag, appended only
when strictly between 50 and 400 Hz. -/
def frameF0 (sr : Nat) (frame : List ℚ) : Option ℚ :=
  match (findPeaksH0 (autocorrSlice frame (sr / 400) (sr / 50))).head? with
  | none => none
  | some p =>
    if 50 < (sr : ℚ) / ((p + sr / 400 : Nat) : ℚ) ∧
        (sr : ℚ) / ((p + sr / 400 : Nat) : ℚ) < 400
    then some ((sr : ℚ) / ((p + sr / 400 : Nat) : ℚ)) else none

/-- The f0 values of _extract_f0_cached: frame the signal into 2048 sample
frames with hop 512 (a shorter signal raises inside librosa and the outer
except returns [0.0]), collect the accepted per frame estimates, and
substitute the singleton [0.0] when the collection is empty. -/
def extract_f0_cached (audio : List ℚ) (sr : Nat) : List ℚ :=
  match frameSignal audio 2048 512 with
  | none => [0]
  | some frames =>
    let vals := frames.filterMap (frameF0 sr)
    if vals = [] then [0] else vals

/-- extract_pitch: the mean of the cached f0 values (the cache never
returns an empty list, so the guard mean is always taken). -/
def extract_pitch (audio : List ℚ) (sr : Nat) : ℚ :=
  let vals := extract_f0_cached audio sr
  if 0 < vals.length then meanQ vals else 0

/-- extract_jitter: mean absolute difference of consecutive pitch periods
1 / (f0 + 1e-8), normalized by the mean period plus 1e-8; 0.0 with fewer
than two cached f0 values. -/
def extract_jitter (audio : List ℚ) (sr : Nat) : ℚ :=
  let f0s := extract_f0_cached audio sr
  if f0s.length < 2 then 0
  else
    let periods := f0s.map fun f => 1 / (f + 1 / 100000000)
    let diffs := (periods.zip periods.tail).map fun p => |p.2 - p.1|
    meanQ diffs / (meanQ periods + 1 / 100000000)

/-- Abstract library primitives used by the remaining feature extractors:
scipy find_peaks with a distance and height argument (for shimmer), the
real FFT magnitude spectrum np.abs(np.fft.rfft(frame)) and np.log10 (for
HNR, both irrational in general), librosa MFCC means (np.mean of
librosa.feature.mfcc rows), the four librosa spectral series (centroid,
rolloff, bandwidth, zero crossing rate), and np.std, scipy.stats.skew and
scipy.stats.kurtosis (which involve square roots).  Library failures are
surfaced as errors carrying the raw exception text. -/
structure FeatureLibs where
  findPeaksDist : List ℚ → Nat → ℚ → List Nat
  rfftMag : List ℚ → List ℚ
  log10 : ℚ → ℚ
  mfccMeans : List ℚ → Nat → Nat → Except String (List ℚ)
  spectralSeries : List ℚ → Nat → Except String (List ℚ × List ℚ × List ℚ × List ℚ)
  stdFn : List ℚ → ℚ
  skewFn : List ℚ → ℚ
  kurtFn : List ℚ → ℚ

/-- extract_shimmer: peaks of the absolute waveform with minimum distance
int(sr * 0.005) and minimum height 10 percent of the global peak (the
height computation raises on an empty signal, caught as 0.0); shimmer is
the mean absolute difference of consecutive peak amplitudes normalized by
the mean amplitude plus 1e-8, and 0.0 with fewer than two peaks. -/
def extract_shimmer (F : FeatureLibs) (audio : List ℚ) (sr : Nat) : ℚ :=
  if audio = [] then 0
  else
    let height := maxAbs audio * (1 / 10)
    let dist := sr * 5 / 1000
    let peaks := F.findPeaksDist (audio.map fun x => |x|) dist height
    if peaks.length < 2 then 0
    else
      let amps := peaks.map fun p => |audio.getD p 0|
      let diffs := (amps.zip amps.tail).map fun p => |p.2 - p.1|
      meanQ diffs / (meanQ amps + 1 / 100000000)

/-- First index of the maximum value, np.argmax: the running best is
replaced only on a strictly larger value. -/
def argmaxAux : List ℚ → Nat → Nat → ℚ → Nat
  | [], _, bi, _ => bi
  | y :: rest, i, bi, bv =>
    if bv < y then argmaxAux rest (i + 1) i y else argmaxAux rest (i + 1) bi bv

/-- np.argmax over a list, 0 on an empty list (use sites guard against
that). -/
def argmaxIdx : List ℚ → Nat
  | [] => 0
  | y :: rest => argmaxAux rest 1 0 y

/-- Sum of the strided slice mag[p :: p]: entries at indices p, 2p, 3p and
so on, used as the harmonic energy in extract_hnr. -/
def strideSum (xs : List ℚ) (p : Nat) : ℚ :=
  ((List.range ((xs.length - 1) / p)).map fun m => xs.getD (p * (m + 1)) 0).sum

/-- extract_hnr: frame the signal (1024 sample frames, hop 256, a shorter
signal raising inside librosa and degrading to 0.0); per frame take the
magnitude spectrum, find the dominant bin in its lower half, sum the bin
and its integer multiples as harmonic energy (the whole spectrum when the
dominant bin is 0), treat the remainder as noise, and keep
10 * log10(harmonic / noise) for frames with positive noise energy; the
result is the mean of those values, 0.0 when no frame qualifies. -/
def extract_hnr (F : FeatureLibs) (audio : List ℚ) (sr : Nat) : ℚ :=
  match frameSignal audio 1024 256 with
  | none => 0
  | some frames =>
    let hnrs := frames.filterMap fun frame =>
      let mag := F.rfftMag frame
      if 1 < mag.length then
        let peakIdx := argmaxIdx (mag.take (mag.length / 2))
        let harmonic := if 0 < peakIdx then strideSum mag peakIdx else mag.sum
        let noise := mag.sum - harmonic
        if 0 < noise then some (10 * F.log10 (harmonic / noise)) else none
      else none
    if hnrs = [] then 0 else meanQ hnrs

/-- extract_mfcc_features: the n_mfcc per coefficient means from librosa,
degrading to a zero filled list of the same length when the library
raises. -/
def extract_mfcc_features (F : FeatureLibs) (audio : List ℚ) (sr : Nat) (nMfcc : Nat) :
    List ℚ :=
  match F.mfccMeans audio sr nMfcc with
  | .ok l => l
  | .error _ => List.replicate nMfcc 0

/-- The eight spectral summary slots of extract_spectral_features in their
dictionary order. -/
structure SpectralFeats where
  centroidMean : ℚ
  centroidStd : ℚ
  rolloffMean : ℚ
  rolloffStd : ℚ
  bandwidthMean : ℚ
  bandwidthStd : ℚ
  zcrMean : ℚ
  zcrStd : ℚ
  deriving DecidableEq

/-- extract_spectral_features: means and standard deviations of the four
librosa series (spectral centroid, rolloff, bandwidth, zero crossing rate),
degrading to the all zero dictionary when the library raises. -/
def extract_spectral_features (F : FeatureLibs) (audio : List ℚ) (sr : Nat) :
    SpectralFeats :=
  match F.spectralSeries audio sr with
  | .ok s => ⟨meanQ s.1, F.stdFn s.1, meanQ s.2.1, F.stdFn s.2.1,
      meanQ s.2.2.1, F.stdFn s.2.2.1, meanQ s.2.2.2, F.stdFn s.2.2.2⟩
  | .error _ => ⟨0, 0, 0, 0, 0, 0, 0, 0⟩

/-- Insertion of a value into a sorted list, used for the median sort. -/
def insertSorted (x : ℚ) : List ℚ → List ℚ
  | [] => [x]
  | y :: ys => if x ≤ y then x :: y :: ys else y :: insertSorted x ys

/-- Sorting a list of rationals by insertion, used for np.median. -/
def sortQ (xs : List ℚ) : List ℚ := xs.foldr insertSorted []

/-- np.median: middle element of the sorted values for odd length, mean of
the two middle elements for even length. -/
def medianQ (xs : List ℚ) : ℚ :=
  let s := sortQ xs
  let n := s.length
  if n = 0 then 0
  else if n % 2 = 1 then s.getD (n / 2) 0
  else (s.getD (n / 2 - 1) 0 + s.getD (n / 2) 0) / 2

/-- np.min over a nonempty list (use sites guard the empty case). -/
def minQ : List ℚ → ℚ
  | [] => 0
  | x :: xs => xs.foldl min x

/-- np.max over a nonempty list (use sites guard the empty case). -/
def maxQ : List ℚ → ℚ
  | [] => 0
  | x :: xs => xs.foldl max x

/-- np.var: population variance, the mean of squared deviations. -/
def varQ (xs : List ℚ) : ℚ := meanQ (xs.map fun x => (x - meanQ xs) ^ 2)

/-- The nine waveform statistics slots of extract_statistical_features in
their dictionary order. -/
structure StatFeats where
  mean : ℚ
  std : ℚ
  var : ℚ
  median : ℚ
  min : ℚ
  max : ℚ
  range : ℚ
  skewness : ℚ
  kurtosis : ℚ
  deriving DecidableEq

/-- extract_statistical_features: the waveform statistics dictionary; on an
empty signal np.min raises and the except branch returns the all zero
dictionary. -/
def extract_statistical_features (F : FeatureLibs) (audio : List ℚ) : StatFeats :=
  if audio = [] then ⟨0, 0, 0, 0, 0, 0, 0, 0, 0⟩
  else ⟨meanQ audio, F.stdFn audio, varQ audio, medianQ audio, minQ audio, maxQ audio,
    maxQ audio - minQ audio, F.skewFn audio, F.kurtFn audio⟩

/-- extract_all_features: the fixed slot order vector
[pitch, jitter, shimmer, hnr, mfcc 0..12, the eight spectral slots, the
nine statistics slots]. -/
def extract_all_features (F : FeatureLibs) (audio : List ℚ) (sr : Nat) : List ℚ :=
  let mfcc := extract_mfcc_features F audio sr 13
  let sp := extract_spectral_features F audio sr
  let st := extract_statistical_features F audio
  [extract_pitch audio sr, extract_jitter audio sr,
    extract_shimmer F audio sr, extract_hnr F audio sr]
  ++ mfcc
  ++ [sp.centroidMean, sp.centroidStd, sp.rolloffMean, sp.rolloffStd,
      sp.bandwidthMean, sp.bandwidthStd, sp.zcrMean, sp.zcrStd]
  ++ [st.mean, st.std, st.var, st.median, st.min, st.max, st.range, st.skewness, st.kurtosis]

/-- The except branch of extract_all_features, np.zeros(34). -/
def extract_all_features_onError : List ℚ := List.replicate 34 0

/-- Per frame candidate exactly as the specification sentence for the pitch
feature words it: the first local maximum of the autocorrelation in the lag
range (with no height threshold), converted as sr / lag and accepted when
within the closed interval [50, 400] Hz. -/
def frameF0FirstLocalMax (sr : Nat) (frame : List ℚ) : Option ℚ :=
  match (localMaxima (autocorrSlice frame (sr / 400) (sr / 50))).head? with
  | none => none
  | some p =>
    if 50 ≤ (sr : ℚ) / ((p + sr / 400 : Nat) : ℚ) ∧
        (sr : ℚ) / ((p + sr / 400 : Nat) : ℚ) ≤ 400
    then some ((sr : ℚ) / ((p + sr / 400 : Nat) : ℚ)) else none

/-- Pitch as the specification sentence for C7 describes it: mean of the
per frame first local maximum estimates, 0.0 when no frame is voiced. -/
def pitchFirstLocalMax (audio : List ℚ) (sr : Nat) : ℚ :=
  match frameSignal audio 2048 512 with
  | none => 0
  | some frames =>
    let vals := frames.filterMap (frameF0FirstLocalMax sr)
    if vals = [] then 0 else meanQ vals

/-- Per frame candidate of the amended pitch description: the first local
maximum with nonnegative autocorrelation value (the height 0 threshold of
the source), converted as sr / lag and accepted when within [50, 400] Hz. -/
def frameF0Model (sr : Nat) (frame : List ℚ) : Option ℚ :=
  match (findPeaksH0 (autocorrSlice frame (sr / 400) (sr / 50))).head? with
  | none => none
  | some p =>
    if 50 ≤ (sr : ℚ) / ((p + sr / 400 : Nat) : ℚ) ∧
        (sr : ℚ) / ((p + sr / 400 : Nat) : ℚ) ≤ 400
    then some ((sr : ℚ) / ((p + sr / 400 : Nat) : ℚ)) else none

/-- Pitch under the amended description: mean of the height filtered first
local maximum estimates, 0.0 when no frame is voiced. -/
def pitchHeightFiltered (audio : List ℚ) (sr : Nat) : ℚ :=
  match frameSignal audio 2048 512 with
  | none => 0
  | some frames =>
    let vals := frames.filterMap (frameF0Model sr)
    if vals = [] then 0 else meanQ vals

/-- A 2048 sample signal holding the burst 1, 1, 4, 1, -2 followed by
silence; at 400 Hz its autocorrelation lag slice is [7, -3, -1, -2, 0, 0, 0],
whose first local maximum (lag 3, value -1) is negative. -/
def audioCx : List ℚ := [1, 1, 4, 1, -2] ++ List.replicate 2043 0

/-- Stub feature libraries: MFCC succeeds with zero means, the spectral
series call raises, everything else returns empty or zero values. -/
def stubFeatureLibs : FeatureLibs where
  findPeaksDist := fun _ _ _ => []
  rfftMag := fun _ => []
  log10 := fun _ => 0
  mfccMeans := fun _ _ n => .ok (List.replicate n 0)
  spectralSeries := fun _ _ => .error "librosa spectral raised"
  stdFn := fun _ => 0
  skewFn := fun _ => 0
  kurtFn := fun _ => 0

lemma riffTag_length : riffTag.length = 4 := rfl

lemma waveTag_length : waveTag.length = 4 := rfl

lemma fmtTag_length : fmtTag.length = 4 := rfl

lemma dataTag_length : dataTag.length = 4 := rfl

lemma le16_length (n : Nat) : (le16 n).length = 2 := rfl

lemma le32_length (n : Nat) : (le32 n).length = 4 := rfl

lemma leDecode_le32 (n : Nat) (h : n < 4294967296) : leDecode (le32 n) = n := by
  simp [leDecode, le32]
  omega

lemma leDecode_le16 (n : Nat) (h : n < 65536) : leDecode (le16 n) = n := by
  simp [leDecode, le16]
  omega

lemma pcmQ_length (d : List Nat) : (pcmQ d).length = d.length / 2 := by
  simp [pcmQ]

lemma meanRows_length (c : Nat) (xs : List ℚ) : (meanRows c xs).length = xs.length / c := by
  simp [meanRows]

lemma parseChunksF_skip (f : Nat) (tag p rest : List Nat) (ch rate : Nat)
    (htl : tag.length = 4) (hf : tag ≠ fmtTag) (hd : tag ≠ dataTag)
    (hp : p.length < 4294967296) :
    parseChunksF (f + 1) (chunkBytes tag p ++ rest) ch rate = parseChunksF f rest ch rate := by
  have h1 : chunkBytes tag p ++ rest = tag ++ (le32 p.length ++ (p ++ rest)) := by
    simp [chunkBytes]
  rw [h1]
  simp only [parseChunksF, List.take_left' htl, List.drop_left' htl,
    List.take_left' (le32_length _), List.drop_left' (le32_length _),
    leDecode_le32 _ hp, le32_length, List.drop_left]
  simp [hf, hd, htl]

lemma parseChunksF_fmt (f : Nat) (x0 x1 : Nat) (extra rest : List Nat) (c r ch rate : Nat)
    (hc : c < 65536) (hr : r < 4294967296)
    (hlen : 8 + extra.length < 4294967296) :
    parseChunksF (f + 1)
      (chunkBytes fmtTag ([x0, x1] ++ (le16 c ++ (le32 r ++ extra))) ++ rest) ch rate
      = parseChunksF f rest c r := by
  set fp : List Nat := [x0, x1] ++ (le16 c ++ (le32 r ++ extra)) with hfp
  have hfplen : fp.length = 8 + extra.length := by
    simp [hfp, le16_length, le32_length]
    omega
  have h1 : chunkBytes fmtTag fp ++ rest = fmtTag ++ (le32 fp.length ++ (fp ++ rest)) := by
    simp [chunkBytes]
  have htake : (fp ++ rest).take fp.length = fp := List.take_left fp rest
  have hdrop : (fp ++ rest).drop fp.length = rest := List.drop_left fp rest
  have hfp2 : fp.drop 2 = le16 c ++ (le32 r ++ extra) := by
    simp [hfp]
  have hfp4 : fp.drop 4 = le32 r ++ extra := by
    have : fp = ([x0, x1] ++ le16 c) ++ (le32 r ++ extra) := by
      simp [hfp]
    rw [this, List.drop_left' (by simp [le16_length])]
  rw [h1]
  simp only [parseChunksF, List.take_left' fmtTag_length, List.drop_left' fmtTag_length,
    List.take_left' (le32_length _), List.drop_left' (le32_length _),
    leDecode_le32 _ (by omega : fp.length < 4294967296), htake, hdrop,
    hfp2, hfp4, List.take_left' (le16_length c), List.take_left' (le32_length r),
    leDecode_le16 _ hc, leDecode_le32 _ hr, le16_length, le32_length, fmtTag_length]
  simp

lemma parseChunksF_data (f : Nat) (d rest : List Nat) (ch rate : Nat)
    (hd : d.length < 4294967296) :
    parseChunksF (f + 1) (chunkBytes dataTag d ++ rest) ch rate = dataResult ch rate d := by
  have h1 : chunkBytes dataTag d ++ rest = dataTag ++ (le32 d.length ++ (d ++ rest)) := by
    simp [chunkBytes]
  rw [h1]
  simp only [parseChunksF, List.take_left' dataTag_length, List.drop_left' dataTag_length,
    List.take_left' (le32_length _), List.drop_left' (le32_length _),
    leDecode_le32 _ hd, List.take_left, le32_length, dataTag_length]
  simp [show dataTag ≠ fmtTag by decide]

lemma parseChunksF_junk (cs : List (List Nat × List Nat)) (f : Nat) (rest : List Nat)
    (ch rate : Nat) (hj : JunkChunks cs) :
    parseChunksF (f + cs.length) (chunksBytes cs ++ rest) ch rate
      = parseChunksF f rest ch rate := by
  induction cs generalizing rest with
  | nil => simp [chunksBytes]
  | cons c cs ih =>
    obtain ⟨t, p⟩ := c
    obtain ⟨htl, hnf, hnd, hp⟩ := hj (t, p) (List.mem_cons_self _ _)
    have hj2 : JunkChunks cs := fun x hx => hj x (List.mem_cons_of_mem _ hx)
    rw [show f + (List.length ((t, p) :: cs)) = (f + cs.length) + 1 by simp; omega]
    rw [chunksBytes, List.append_assoc, parseChunksF_skip _ t p _ ch rate htl hnf hnd hp]
    exact ih _ hj2

lemma loadManualWav_header (s : Nat) (tail : List Nat) :
    loadManualWav (riffTag ++ (le32 s ++ (waveTag ++ tail))) =
      parseChunksF ((riffTag ++ (le32 s ++ (waveTag ++ tail))).length + 1) tail 1 16000 := by
  simp [loadManualWav, riffTag, waveTag, le32]

lemma chunksBytes_length_ge (cs : List (List Nat × List Nat)) :
    cs.length ≤ (chunksBytes cs).length := by
  induction cs with
  | nil => simp [chunksBytes]
  | cons c cs ih =>
    obtain ⟨t, p⟩ := c
    simp only [chunksBytes, chunkBytes, List.length_cons, List.length_append, le32_length]
    omega

lemma dataResult_ok (ch rate : Nat) (d : List Nat) (hpos : 0 < ch)
    (hdvd : 2 * ch ∣ d.length) :
    dataResult ch rate d = .ok (wavSamples ch d, rate) := by
  obtain ⟨k, hk⟩ := hdvd
  rw [mul_assoc] at hk
  have heven : d.length % 2 = 0 := by omega
  have hdl : d.length / 2 = ch * k := by omega
  have hmod : (pcmQ d).length % ch = 0 := by
    rw [pcmQ_length, hdl, Nat.mul_mod_right]
  simp only [dataResult, wavSamples, if_pos heven]
  by_cases h : 1 < ch
  · rw [if_pos h, if_pos h, if_pos hmod]
  · simp only [if_neg h]

lemma wavSamples_length (c : Nat) (d : List Nat) (hpos : 0 < c)
    (hdvd : 2 * c ∣ d.length) :
    (wavSamples c d).length = d.length / (2 * c) := by
  unfold wavSamples
  by_cases h : 1 < c
  · rw [if_pos h, meanRows_length, pcmQ_length, Nat.div_div_eq_div_mul]
  · have hc1 : c = 1 := by omega
    rw [if_neg h, pcmQ_length, hc1]

/-- C3: for every byte sequence conforming to the manual WAV format contract
(RIFF and WAVE magic, optional unknown chunks which the parser skips by
exactly their payload length, an fmt chunk carrying a little-endian uint16
channel count at payload offset 2 and a little-endian uint32 sample rate at
offset 4, then a data chunk of signed little-endian 16 bit PCM), the manual
parser returns a mono signal of the fmt sample rate whose sample count is
the data chunk byte length divided by 2 bytes per sample times the channel
count, with samples normalized by 32768 and channels averaged to mono. -/
theorem c3_manual_wav_sample_count
    (pre mid : List (List Nat × List Nat)) (x0 x1 : Nat) (extra : List Nat)
    (c r : Nat) (d rest : List Nat) (s : Nat)
    (hpre : JunkChunks pre) (hmid : JunkChunks mid)
    (hc : c < 65536) (hcpos : 0 < c) (hr : r < 4294967296)
    (hextra : 8 + extra.length < 4294967296)
    (hd32 : d.length < 4294967296) (hdiv : 2 * c ∣ d.length) :
    loadManualWav (riffTag ++ (le32 s ++ (waveTag ++ (chunksBytes pre ++
        (chunkBytes fmtTag ([x0, x1] ++ (le16 c ++ (le32 r ++ extra))) ++
        (chunksBytes mid ++ (chunkBytes dataTag d ++ rest)))))))
      = .ok (wavSamples c d, r) ∧
    (wavSamples c d).length = d.length / (2 * c) := by
  constructor
  · rw [loadManualWav_header]
    set tail : List Nat := chunksBytes pre ++
        (chunkBytes fmtTag ([x0, x1] ++ (le16 c ++ (le32 r ++ extra))) ++
        (chunksBytes mid ++ (chunkBytes dataTag d ++ rest))) with htail
    have hlen : pre.length + (mid.length + 2) ≤
        (riffTag ++ (le32 s ++ (waveTag ++ tail))).length + 1 := by
      have h1 := chunksBytes_length_ge pre
      have h2 := chunksBytes_length_ge mid
      simp only [htail, List.length_append, chunkBytes, le32_length, riffTag_length]
      simp [riffTag, waveTag, le32]
      omega
    obtain ⟨g, hg⟩ : ∃ g, (riffTag ++ (le32 s ++ (waveTag ++ tail))).length + 1 =
        g + (pre.length + (mid.length + 2)) := ⟨_, (Nat.sub_add_cancel hlen).symm⟩
    rw [hg, htail]
    rw [show g + (pre.length + (mid.length + 2)) = (g + mid.length + 2) + pre.length by omega]
    rw [parseChunksF_junk pre _ _ _ _ hpre]
    rw [show g + mid.length + 2 = (g + mid.length + 1) + 1 by omega]
    rw [parseChunksF_fmt _ x0 x1 extra _ c r _ _ hc hr hextra]
    rw [show g + mid.length + 1 = (g + 1) + mid.length by omega]
    rw [parseChunksF_junk mid _ _ _ _ hmid]
    rw [parseChunksF_data _ d rest _ _ hd32]
    exact dataResult_ok c r d hcpos hdiv
  · exact wavSamples_length c d hcpos hdiv

/-- C3 witness: a concrete valid WAV stream with one junk chunk, a stereo fmt
chunk at 44100 Hz, and 8 data bytes, parsed to 2 mono samples. -/
theorem c3_manual_wav_sample_count_witness :
    JunkChunks [([74, 85, 78, 75], [9, 9, 9])] ∧ JunkChunks [] ∧
    (0 : Nat) < 2 ∧ 2 * 2 ∣ ([0, 0, 0, 0, 0, 64, 0, 64] : List Nat).length ∧
    loadManualWav (riffTag ++ (le32 36 ++ (waveTag ++ (chunksBytes [([74, 85, 78, 75], [9, 9, 9])] ++
        (chunkBytes fmtTag ([1, 0] ++ (le16 2 ++ (le32 44100 ++ []))) ++
        (chunksBytes [] ++ (chunkBytes dataTag [0, 0, 0, 0, 0, 64, 0, 64] ++ [])))))))
      = .ok (wavSamples 2 [0, 0, 0, 0, 0, 64, 0, 64], 44100) ∧
    (wavSamples 2 [0, 0, 0, 0, 0, 64, 0, 64]).length =
      ([0, 0, 0, 0, 0, 64, 0, 64] : List Nat).length / (2 * 2) := by
  refine ⟨by decide, by decide, by decide, by decide, ?_, ?_⟩
  · exact (c3_manual_wav_sample_count [([74, 85, 78, 75], [9, 9, 9])] [] 1 0 [] 2 44100
      [0, 0, 0, 0, 0, 64, 0, 64] [] 36 (by decide) (by decide) (by decide) (by decide)
      (by decide) (by decide) (by decide) (by decide)).1
  · exact (c3_manual_wav_sample_count [([74, 85, 78, 75], [9, 9, 9])] [] 1 0 [] 2 44100
      [0, 0, 0, 0, 0, 64, 0, 64] [] 36 (by decide) (by decide) (by decide) (by decide)
      (by decide) (by decide) (by decide) (by decide)).2

/-- C10: a RIFF WAVE stream that reaches a data chunk without any fmt chunk
is not rejected: the manual parser decodes it with the default channel count
1 and the default, assumed sample rate 16000. -/
theorem c10_data_chunk_without_fmt_defaults
    (pre : List (List Nat × List Nat)) (d rest : List Nat) (s : Nat)
    (hpre : JunkChunks pre) (hd32 : d.length < 4294967296)
    (heven : 2 ∣ d.length) :
    loadManualWav (riffTag ++ (le32 s ++ (waveTag ++ (chunksBytes pre ++
        (chunkBytes dataTag d ++ rest)))))
      = .ok (pcmQ d, 16000) ∧ (pcmQ d).length = d.length / 2 := by
  constructor
  · rw [loadManualWav_header]
    set tail : List Nat := chunksBytes pre ++ (chunkBytes dataTag d ++ rest) with htail
    have hlen : pre.length + 1 ≤ (riffTag ++ (le32 s ++ (waveTag ++ tail))).length + 1 := by
      have h1 := chunksBytes_length_ge pre
      simp only [htail, List.length_append]
      omega
    obtain ⟨g, hg⟩ : ∃ g, (riffTag ++ (le32 s ++ (waveTag ++ tail))).length + 1 =
        g + (pre.length + 1) := ⟨_, (Nat.sub_add_cancel hlen).symm⟩
    rw [hg, htail]
    rw [show g + (pre.length + 1) = (g + 1) + pre.length by omega]
    rw [parseChunksF_junk pre _ _ _ _ hpre]
    rw [parseChunksF_data _ d rest _ _ hd32]
    have := dataResult_ok 1 16000 d (by omega) (by simpa using heven)
    rw [this]
    simp [wavSamples]
  · exact pcmQ_length d

/-- C10 witness: a stream whose only chunks are one junk chunk and a data
chunk, decoded at the assumed 16000 Hz with the default single channel. -/
theorem c10_data_chunk_without_fmt_defaults_witness :
    JunkChunks [([74, 85, 78, 75], [7])] ∧ 2 ∣ ([0, 64, 0, 192] : List Nat).length ∧
    loadManualWav (riffTag ++ (le32 20 ++ (waveTag ++ (chunksBytes [([74, 85, 78, 75], [7])] ++
        (chunkBytes dataTag [0, 64, 0, 192] ++ [])))))
      = .ok (pcmQ [0, 64, 0, 192], 16000) ∧
    (pcmQ [0, 64, 0, 192]).length = ([0, 64, 0, 192] : List Nat).length / 2 := by
  refine ⟨by decide, by decide, ?_, ?_⟩
  · exact (c10_data_chunk_without_fmt_defaults [([74, 85, 78, 75], [7])] [0, 64, 0, 192] [] 20
      (by decide) (by decide) (by decide)).1
  · exact (c10_data_chunk_without_fmt_defaults [([74, 85, 78, 75], [7])] [0, 64, 0, 192] [] 20
      (by decide) (by decide) (by decide)).2

/-- C6 counterexample: a RIFF WAVE stream whose data chunk declares 8 payload
bytes while only 4 remain is not rejected; the manual parser decodes the two
samples actually present.  The byte stream truncates before the chunk body is
fully readable, yet parsing succeeds, refuting the claim that the parser
fails on every such truncation. -/
theorem c6_counterexample_truncated_data_chunk_parses :
    loadManualWav (riffTag ++ (le32 0 ++ (waveTag ++ (dataTag ++ (le32 8 ++ [0, 0, 0, 0])))))
      = .ok (pcmQ [0, 0, 0, 0], 16000) ∧
    (pcmQ [0, 0, 0, 0]).length = 2 ∧
    (riffTag ++ (le32 0 ++ (waveTag ++ (dataTag ++ (le32 8 ++ [0, 0, 0, 0]))))).length = 24 ∧
    leDecode (le32 8) = 8 := by
  refine ⟨rfl, by decide, by decide, by decide⟩

/-- C6 amended: the manual WAV parser fails when the RIFF magic is absent,
when the RIFF size field or the WAVE magic cannot be read, and whenever
fewer than 8 bytes remain where a chunk header is expected; a data chunk
whose declared size exceeds the remaining bytes, however, is decoded from
the bytes actually present (failing only when that byte count is odd or
incompatible with the channel count) rather than rejected. -/
theorem c6_amended_magic_and_header_truncation_fail :
    (∀ bs : List Nat, bs.take 4 ≠ riffTag → loadManualWav bs = .error "Not a WAV file") ∧
    (∀ bs : List Nat, bs.take 4 = riffTag → ((bs.drop 4).take 4).length = 4 →
      (bs.drop 8).take 4 ≠ waveTag → loadManualWav bs = .error "Invalid WAV file") ∧
    (∀ (f : Nat) (bs : List Nat) (ch rate : Nat), 0 < f → bs.length < 8 →
      ∃ e, parseChunksF f bs ch rate = .error e) := by
  refine ⟨?_, ?_, ?_⟩
  · intro bs h
    simp [loadManualWav, h]
  · intro bs h1 h2 h3
    simp [loadManualWav, h1, h2, h3]
  · intro f bs ch rate hf hlen
    match f, hf with
    | f + 1, _ =>
      by_cases h4 : bs.length < 4
      · refine ⟨"Truncated WAV file", ?_⟩
        have ht : (bs.take 4).length < 4 := by
          simp only [List.length_take]
          omega
        simp only [parseChunksF]
        rw [if_pos ht]
      · have ht : ¬(bs.take 4).length < 4 := by
          simp only [List.length_take]
          omega
        have h5 : ¬((bs.drop 4).take 4).length = 4 := by
          simp only [List.length_take, List.length_drop]
          omega
        refine ⟨"truncated chunk size", ?_⟩
        simp only [parseChunksF]
        rw [if_neg ht, if_neg h5]

/-- C6 amended witness: a three byte stream lacks the RIFF magic and is
rejected by the manual parser. -/
theorem c6_amended_magic_and_header_truncation_fail_witness :
    ([1, 2, 3] : List Nat).take 4 ≠ riffTag ∧
    loadManualWav [1, 2, 3] = .error "Not a WAV file" :=
  ⟨by decide, c6_amended_magic_and_header_truncation_fail.1 [1, 2, 3] (by decide)⟩

/-- C2: the decode chain tries librosa, soundfile, scipy and the manual WAV
parse in that fixed priority order and short circuits on the first success
(the trace lists exactly the strategies invoked); it fails only when every
strategy has failed, and the aggregated error then names the input byte size
and the nominally supported formats, a fixed function of the input alone
that exposes none of the underlying decoder error strings. -/
theorem c2_chain_order_short_circuit_aggregate (L : LibDecoders) (bs : List Nat)
    (sr : Option Nat) (duration : Option ℚ) :
    (∀ res, L.librosaLoad bs sr duration = .ok res →
      loadAudioSafeT L bs sr duration = (.ok res, [1])) ∧
    (∀ e d, L.librosaLoad bs sr duration = .error e → L.sfRead bs = .ok d →
      loadAudioSafeT L bs sr duration = (.ok (toMono d.1, d.2), [1, 2])) ∧
    (∀ e1 e2 d, L.librosaLoad bs sr duration = .error e1 → L.sfRead bs = .error e2 →
      L.scipyRead bs = .ok d →
      loadAudioSafeT L bs sr duration = (.ok (toMono d.1, d.2), [1, 2, 3])) ∧
    (∀ e1 e2 e3 res, L.librosaLoad bs sr duration = .error e1 → L.sfRead bs = .error e2 →
      L.scipyRead bs = .error e3 → loadManualWav bs = .ok res →
      loadAudioSafeT L bs sr duration = (.ok res, [1, 2, 3, 4])) ∧
    ((∃ err, loadAudioSafe L bs sr duration = .error err) ↔
      ((∃ e, L.librosaLoad bs sr duration = .error e) ∧ (∃ e, L.sfRead bs = .error e) ∧
       (∃ e, L.scipyRead bs = .error e) ∧ (∃ e, loadManualWav bs = .error e))) ∧
    (∀ e1 e2 e3 e4, L.librosaLoad bs sr duration = .error e1 → L.sfRead bs = .error e2 →
      L.scipyRead bs = .error e3 → loadManualWav bs = .error e4 →
      loadAudioSafe L bs sr duration = .error ⟨bs.length, supportedFormats⟩) := by
  refine ⟨?_, ?_, ?_, ?_, ?_, ?_⟩
  · intro res h
    simp [loadAudioSafeT, h]
  · intro e d h1 h2
    simp [loadAudioSafeT, h1, h2]
  · intro e1 e2 d h1 h2 h3
    simp [loadAudioSafeT, h1, h2, h3]
  · intro e1 e2 e3 res h1 h2 h3 h4
    simp [loadAudioSafeT, h1, h2, h3, h4]
  · constructor
    · rintro ⟨err, herr⟩
      unfold loadAudioSafe loadAudioSafeT at herr
      cases h1 : L.librosaLoad bs sr duration with
      | ok r => rw [h1] at herr; simp at herr
      | error e1 =>
        rw [h1] at herr
        cases h2 : L.sfRead bs with
        | ok d => rw [h2] at herr; simp at herr
        | error e2 =>
          rw [h2] at herr
          cases h3 : L.scipyRead bs with
          | ok d => rw [h3] at herr; simp at herr
          | error e3 =>
            rw [h3] at herr
            cases h4 : loadManualWav bs with
            | ok r => rw [h4] at herr; simp at herr
            | error e4 => exact ⟨⟨e1, rfl⟩, ⟨e2, rfl⟩, ⟨e3, rfl⟩, ⟨e4, rfl⟩⟩
    · rintro ⟨⟨e1, h1⟩, ⟨e2, h2⟩, ⟨e3, h3⟩, ⟨e4, h4⟩⟩
      exact ⟨⟨bs.length, supportedFormats⟩, by simp [loadAudioSafe, loadAudioSafeT, h1, h2, h3, h4]⟩
  · intro e1 e2 e3 e4 h1 h2 h3 h4
    simp [loadAudioSafe, loadAudioSafeT, h1, h2, h3, h4]

/-- C2 witness: on a 1 byte input that every decoder rejects, the chain
aggregates the error naming byte size 1 and the supported formats. -/
theorem c2_chain_order_short_circuit_aggregate_witness :
    failAllDecoders.librosaLoad [3] none none = .error "librosa raised" ∧
    loadManualWav [3] = .error "Not a WAV file" ∧
    loadAudioSafe failAllDecoders [3] none none = .error ⟨1, supportedFormats⟩ :=
  ⟨rfl, by decide,
    (c2_chain_order_short_circuit_aggregate failAllDecoders [3] none none).2.2.2.2.2
      "librosa raised" "soundfile raised" "scipy raised" "Not a WAV file" rfl rfl rfl (by decide)⟩

/-- C5 counterexample: on a zero length input the chain does not fail before
invoking its strategies; the invocation trace shows all four strategies were
attempted (the libraries reject an empty file, and the manual parse finds no
RIFF magic) before the aggregated failure naming byte size 0 is reported. -/
theorem c5_counterexample_empty_input_invokes_all_strategies :
    loadAudioSafeT failAllDecoders [] none (some 10)
      = (.error ⟨0, supportedFormats⟩, [1, 2, 3, 4]) ∧
    (loadAudioSafeT failAllDecoders [] none (some 10)).2 ≠ ([] : List Nat) := by
  refine ⟨by decide, by decide⟩

/-- C5 amended: a zero length input does make the chain fail overall, with
the aggregated error naming byte size 0, but only after all four strategies
have been invoked and have failed; the code performs no early empty input
check that would skip the strategies. -/
theorem c5_amended_empty_input_fails_after_all_strategies (L : LibDecoders)
    (sr : Option Nat) (duration : Option ℚ)
    (h1 : ∃ e, L.librosaLoad [] sr duration = .error e)
    (h2 : ∃ e, L.sfRead [] = .error e)
    (h3 : ∃ e, L.scipyRead [] = .error e) :
    loadAudioSafeT L [] sr duration = (.error ⟨0, supportedFormats⟩, [1, 2, 3, 4]) := by
  obtain ⟨e1, h1⟩ := h1
  obtain ⟨e2, h2⟩ := h2
  obtain ⟨e3, h3⟩ := h3
  simp [loadAudioSafeT, h1, h2, h3, show loadManualWav [] = .error "Not a WAV file" from rfl]

/-- C5 amended witness: the empty input with decoders that reject it. -/
theorem c5_amended_empty_input_fails_after_all_strategies_witness :
    (∃ e, failAllDecoders.librosaLoad [] none (some 10) = .error e) ∧
    loadAudioSafeT failAllDecoders [] none (some 10)
      = (.error ⟨0, supportedFormats⟩, [1, 2, 3, 4]) :=
  ⟨⟨"librosa raised", rfl⟩,
    c5_amended_empty_input_fails_after_all_strategies failAllDecoders none (some 10)
      ⟨"librosa raised", rfl⟩ ⟨"soundfile raised", rfl⟩ ⟨"scipy raised", rfl⟩⟩

/-- C8 counterexample: invoked with a maximum duration of 10 seconds, the
chain returns via the manual WAV strategy a signal of 11 samples at the
reported rate of 1 Hz, which is 11 seconds of audio: the fallback strategies
are not bounded by the duration clamp. -/
theorem c8_counterexample_fallback_exceeds_duration_clamp :
    loadAudioSafe failAllDecoders longWavBytes none (some 10)
      = .ok (pcmQ (List.replicate 22 0), 1) ∧
    (pcmQ (List.replicate 22 0)).length = 11 ∧
    ¬(((pcmQ (List.replicate 22 0)).length : ℚ) ≤ 10 * ((1 : Nat) : ℚ)) := by
  refine ⟨rfl, by decide, ?_⟩
  rw [show (pcmQ (List.replicate 22 0)).length = 11 from by decide]
  norm_num

/-- C8 amended: only the first strategy (librosa) receives the duration
argument; once it fails, the chain result is entirely independent of the
requested duration, so the soundfile, scipy and manual WAV strategies are
not duration clamped. -/
theorem c8_amended_duration_reaches_only_first_strategy (L : LibDecoders)
    (bs : List Nat) (sr : Option Nat) (d d' : Option ℚ)
    (h : ∃ e, L.librosaLoad bs sr d = .error e)
    (h' : ∃ e, L.librosaLoad bs sr d' = .error e) :
    loadAudioSafeT L bs sr d = loadAudioSafeT L bs sr d' := by
  obtain ⟨e, he⟩ := h
  obtain ⟨e', he'⟩ := h'
  simp [loadAudioSafeT, he, he']

/-- C8 amended witness: with librosa failing, changing the duration clamp
from 10 to 5 seconds does not change the chain result. -/
theorem c8_amended_duration_reaches_only_first_strategy_witness :
    (∃ e, failAllDecoders.librosaLoad longWavBytes none (some 10) = .error e) ∧
    loadAudioSafeT failAllDecoders longWavBytes none (some 10)
      = loadAudioSafeT failAllDecoders longWavBytes none (some 5) :=
  ⟨⟨"librosa raised", rfl⟩,
    c8_amended_duration_reaches_only_first_strategy failAllDecoders longWavBytes none
      (some 10) (some 5) ⟨"librosa raised", rfl⟩ ⟨"librosa raised", rfl⟩⟩

/-- C9: for every non-empty signal preprocessed at the default target rate
of 22050 Hz, whenever the resampling stage yields the target rate (so the
returned sample rate is 22050), the preprocessed signal holds at least
int(22050 * 0.5) = 11025 samples, and therefore the too-short check of the
caller in app.py, len(audio) < sr * 0.5, is false on that path. -/
theorem c9_preprocess_min_length (P : PreprocLibs) (audio : List ℚ) (sr : Nat)
    (hne : audio ≠ [])
    (hsr : (preprocess_audio P audio sr 22050).2 = 22050) :
    11025 ≤ (preprocess_audio P audio sr 22050).1.length ∧
    ¬(((preprocess_audio P audio sr 22050).1.length : ℚ) <
        ((preprocess_audio P audio sr 22050).2 : ℚ) * (1 / 2)) := by
  have hpad : ∀ (xs : List ℚ) (m : Nat),
      m ≤ (if xs.length < m then xs ++ List.replicate (m - xs.length) 0 else xs).length := by
    intro xs m
    by_cases h : xs.length < m
    · simp only [if_pos h, List.length_append, List.length_replicate]
      omega
    · simp only [if_neg h]
      omega
  have hlen : 11025 ≤ (preprocess_audio P audio sr 22050).1.length := by
    have h1 := hpad (trim_silence P (normalize_audio (resample_audio P audio sr 22050).1) 20)
      (22050 / 2)
    simpa [preprocess_audio] using h1
  refine ⟨hlen, ?_⟩
  rw [hsr]
  have h2 : (11025 : ℚ) ≤ ((preprocess_audio P audio sr 22050).1.length : ℚ) := by
    exact_mod_cast hlen
  intro hcon
  norm_num at hcon
  linarith

/-- C9 witness: a one-sample signal already at 22050 Hz with identity
library stages is padded to 11025 samples. -/
theorem c9_preprocess_min_length_witness :
    ([1] : List ℚ) ≠ [] ∧
    (preprocess_audio ⟨fun a _ _ => .ok a, fun a _ => .ok a⟩ [1] 22050 22050).2 = 22050 ∧
    11025 ≤ (preprocess_audio ⟨fun a _ _ => .ok a, fun a _ => .ok a⟩ [1] 22050 22050).1.length :=
  ⟨by simp, rfl,
    (c9_preprocess_min_length ⟨fun a _ _ => .ok a, fun a _ => .ok a⟩ [1] 22050
      (by simp) rfl).1⟩

/-- C4: the pipeline validates the feature vector length against the
expected scaler input length before invoking the scaler; on any mismatch
neither the scaler nor the classifier is invoked, and if the vector passed
the earlier degenerate-vector check, the error raised is the dedicated
feature mismatch error naming the two lengths. -/
theorem c4_feature_mismatch_blocks_scaler (sm : ScalerModel) (features : List ℚ)
    (hmis : features.length ≠ sm.nFeaturesIn) :
    (predictCore sm features).2.1 = false ∧
    (predictCore sm features).2.2 = false ∧
    (¬(features.length = 0 ∨ features.all (fun x => x = 0)) →
      (predictCore sm features).1 =
        .error (.featureMismatch features.length sm.nFeaturesIn)) := by
  unfold predictCore
  by_cases h0 : features.length = 0 ∨ features.all (fun x => x = 0)
  · rw [if_pos h0]
    exact ⟨rfl, rfl, fun h => absurd h0 h⟩
  · rw [if_neg h0, if_pos hmis]
    exact ⟨rfl, rfl, fun _ => rfl⟩

/-- C4 witness: a 20-length nonzero vector against a scaler expecting 34
raises the feature mismatch error and never reaches scaler or classifier. -/
theorem c4_feature_mismatch_blocks_scaler_witness :
    (List.replicate 20 (1 : ℚ)).length ≠
      (ScalerModel.mk 34 id (fun _ => 0) (fun _ => (1, 0))).nFeaturesIn ∧
    (predictCore (ScalerModel.mk 34 id (fun _ => 0) (fun _ => (1, 0)))
        (List.replicate 20 (1 : ℚ))).2.1 = false ∧
    (predictCore (ScalerModel.mk 34 id (fun _ => 0) (fun _ => (1, 0)))
        (List.replicate 20 (1 : ℚ))).2.2 = false := by
  have h := c4_feature_mismatch_blocks_scaler
    (ScalerModel.mk 34 id (fun _ => 0) (fun _ => (1, 0))) (List.replicate 20 (1 : ℚ))
    (by simp)
  exact ⟨by simp, h.1, h.2.1⟩

lemma getD_replicate_zero (k j : Nat) : (List.replicate k (0 : ℚ)).getD j 0 = 0 := by
  induction k generalizing j with
  | zero => simp
  | succ k ih =>
    cases j with
    | zero => simp [List.replicate]
    | succ j => simp [List.replicate, ih]

lemma autocorrAt_append_zeros (xs : List ℚ) (k lag : Nat) :
    autocorrAt (xs ++ List.replicate k 0) lag = autocorrAt xs lag := by
  unfold autocorrAt
  have hget : ∀ i, (xs ++ List.replicate k (0 : ℚ)).getD i 0 = xs.getD i 0 := by
    intro i
    by_cases h : i < xs.length
    · rw [List.getD_append _ _ _ _ h]
    · push_neg at h
      rw [List.getD_eq_default _ _ (by omega : xs.length ≤ i)]
      rw [List.getD_append_right _ _ _ _ h, getD_replicate_zero]
  simp only [hget, List.length_append, List.length_replicate]
  rw [Finset.sum_subset (Finset.range_subset.2 (by omega : xs.length - lag ≤ xs.length + k - lag))]
  intro i hi hni
  simp only [Finset.mem_range] at hi hni
  by_cases hx : i < xs.length
  · rw [List.getD_eq_default _ _ (by omega : xs.length ≤ i + lag), mul_zero]
  · rw [List.getD_eq_default _ _ (by omega : xs.length ≤ i), zero_mul]

lemma mem_of_head?_eq {α : Type} {l : List α} {a : α} (h : l.head? = some a) : a ∈ l := by
  cases l with
  | nil => simp at h
  | cons b t =>
    simp only [List.head?_cons, Option.some.injEq] at h
    rw [← h]
    exact List.mem_cons_self b t

lemma plateauEnd_ge (x : List ℚ) (v : ℚ) (fuel : Nat) :
    ∀ j, j ≤ plateauEnd x v j fuel := by
  induction fuel with
  | zero => intro j; simp [plateauEnd]
  | succ fuel ih =>
    intro j
    unfold plateauEnd
    by_cases h : j < x.length - 1 ∧ x.getD j 0 = v
    · rw [if_pos h]
      exact le_trans (by omega) (ih (j + 1))
    · rw [if_neg h]

lemma plateauEnd_le (x : List ℚ) (v : ℚ) (fuel : Nat) :
    ∀ j, j ≤ x.length - 1 → plateauEnd x v j fuel ≤ x.length - 1 := by
  induction fuel with
  | zero => intro j h; simpa [plateauEnd] using h
  | succ fuel ih =>
    intro j h
    unfold plateauEnd
    by_cases hc : j < x.length - 1 ∧ x.getD j 0 = v
    · rw [if_pos hc]
      exact ih (j + 1) (by omega)
    · rw [if_neg hc]
      exact h

lemma lmLoop_bounds (x : List ℚ) (fuel : Nat) :
    ∀ i p, 1 ≤ i → p ∈ lmLoop x i fuel → 1 ≤ p ∧ p + 1 < x.length := by
  induction fuel with
  | zero =>
    intro i p _ hp
    simp [lmLoop] at hp
  | succ fuel ih =>
    intro i p hi hp
    unfold lmLoop at hp
    by_cases h1 : i < x.length - 1
    · rw [if_pos h1] at hp
      by_cases h2 : x.getD (i - 1) 0 < x.getD i 0
      · rw [if_pos h2] at hp
        by_cases h3 : x.getD (plateauEnd x (x.getD i 0) (i + 1) x.length) 0 < x.getD i 0
        · rw [if_pos h3] at hp
          rcases List.mem_cons.1 hp with heq | hmem
          · have hj1 : i + 1 ≤ plateauEnd x (x.getD i 0) (i + 1) x.length :=
              plateauEnd_ge x _ x.length (i + 1)
            have hj2 : plateauEnd x (x.getD i 0) (i + 1) x.length ≤ x.length - 1 :=
              plateauEnd_le x _ x.length (i + 1) (by omega)
            rw [heq]
            omega
          · exact ih _ p (by omega) hmem
        · rw [if_neg h3] at hp
          exact ih (i + 1) p (by omega) hp
      · rw [if_neg h2] at hp
        exact ih (i + 1) p (by omega) hp
    · rw [if_neg h1] at hp
      simp at hp

lemma findPeaksH0_bounds (x : List ℚ) (p : Nat) (hp : p ∈ findPeaksH0 x) :
    1 ≤ p ∧ p + 1 < x.length :=
  lmLoop_bounds x x.length 1 p le_rfl (List.mem_of_mem_filter hp)

lemma frameF0_candidate_strict (sr : Nat) (frame : List ℚ) (p : Nat)
    (hp : (findPeaksH0 (autocorrSlice frame (sr / 400) (sr / 50))).head? = some p) :
    (50 : ℚ) < (sr : ℚ) / ((p + sr / 400 : Nat) : ℚ) ∧
    (sr : ℚ) / ((p + sr / 400 : Nat) : ℚ) < 400 := by
  obtain ⟨hp1, hp2⟩ := findPeaksH0_bounds _ _ (mem_of_head?_eq hp)
  have hlen : (autocorrSlice frame (sr / 400) (sr / 50)).length
      = min (sr / 50) frame.length - sr / 400 := by
    simp [autocorrSlice]
  rw [hlen] at hp2
  have h400 : sr < 400 * (p + sr / 400) := by omega
  have h50 : 50 * (p + sr / 400) < sr := by omega
  have hpos : (0 : ℚ) < ((p + sr / 400 : Nat) : ℚ) := by
    exact_mod_cast Nat.lt_of_lt_of_le Nat.zero_lt_one (by omega : 1 ≤ p + sr / 400)
  constructor
  · rw [lt_div_iff hpos]
    exact_mod_cast h50
  · rw [div_lt_iff hpos]
    exact_mod_cast h400

lemma frameF0_eq_model (sr : Nat) (frame : List ℚ) :
    frameF0 sr frame = frameF0Model sr frame := by
  cases hp : (findPeaksH0 (autocorrSlice frame (sr / 400) (sr / 50))).head? with
  | none => simp only [frameF0, frameF0Model, hp]
  | some p =>
    obtain ⟨h1, h2⟩ := frameF0_candidate_strict sr frame p hp
    simp only [frameF0, frameF0Model, hp]
    rw [if_pos ⟨h1, h2⟩, if_pos ⟨le_of_lt h1, le_of_lt h2⟩]

lemma meanQ_single_zero : meanQ [0] = 0 := by
  simp [meanQ]

/-- C7 amended: extract_pitch agrees everywhere with the height filtered
first local maximum model: per frame the candidate is the first local
maximum with a nonnegative autocorrelation value in the lag range sr/400 to
sr/50, converted as sr divided by the lag; every such candidate lies
strictly inside (50, 400) Hz, so the closed acceptance interval [50, 400]
of the specification and the strict comparison of the source coincide; the
pitch is the mean of the accepted estimates and 0.0 when no frame is
voiced. -/
theorem c7_amended_pitch_equals_height_filtered (audio : List ℚ) (sr : Nat) :
    extract_pitch audio sr = pitchHeightFiltered audio sr := by
  have hfun : frameF0 sr = frameF0Model sr := funext (frameF0_eq_model sr)
  cases hf : frameSignal audio 2048 512 with
  | none =>
    simp only [extract_pitch, extract_f0_cached, pitchHeightFiltered, hf]
    simpa using meanQ_single_zero
  | some frames =>
    simp only [extract_pitch, extract_f0_cached, pitchHeightFiltered, hf, hfun]
    by_cases hv : frames.filterMap (frameF0Model sr) = []
    · simp only [hv]
      simpa using meanQ_single_zero
    · simp [hv, List.length_pos.2 hv]

lemma audioCx_length : audioCx.length = 2048 := by
  simp [audioCx]

lemma audioCx_slice : autocorrSlice audioCx 1 8 = [7, -3, -1, -2, 0, 0, 0] := by
  unfold autocorrSlice
  rw [audioCx_length]
  have h2 : ∀ j, autocorrAt audioCx (1 + j) = autocorrAt [1, 1, 4, 1, -2] (1 + j) := by
    intro j
    exact autocorrAt_append_zeros [1, 1, 4, 1, -2] 2043 (1 + j)
  simp only [h2]
  decide

lemma audioCx_frames : frameSignal audioCx 2048 512 = some [audioCx] := by
  have h2 : audioCx.take 2048 = audioCx := by
    rw [← audioCx_length, List.take_length]
  simp [frameSignal, audioCx_length, h2, show List.range 1 = [0] from rfl]

/-- C7 counterexample: on this signal at 400 Hz the first local maximum of
the autocorrelation lag slice is negative (value -1 at lag 3), so the
find_peaks height 0 threshold of the source discards it and extract_pitch
returns 0.0, while the claimed rule (first local maximum, no height
threshold, acceptance in [50, 400]) accepts 400 / 3 Hz: the two disagree. -/
theorem c7_counterexample_negative_first_local_max :
    extract_pitch audioCx 400 ≠ pitchFirstLocalMax audioCx 400 ∧
    extract_pitch audioCx 400 = 0 ∧
    pitchFirstLocalMax audioCx 400 = 400 / 3 := by
  have hf0 : frameF0 400 audioCx = none := by
    rw [frameF0]
    rw [show (400 : Nat) / 400 = 1 from rfl, show (400 : Nat) / 50 = 8 from rfl,
      audioCx_slice]
    decide
  have hf0m : frameF0FirstLocalMax 400 audioCx = some (400 / 3) := by
    rw [frameF0FirstLocalMax]
    rw [show (400 : Nat) / 400 = 1 from rfl, show (400 : Nat) / 50 = 8 from rfl,
      audioCx_slice]
    decide
  have hcache : extract_f0_cached audioCx 400 = [0] := by
    rw [extract_f0_cached.eq_def, audioCx_frames]
    simp [hf0]
  have hcode : extract_pitch audioCx 400 = 0 := by
    rw [extract_pitch, hcache]
    simp [meanQ]
  have hclaim : pitchFirstLocalMax audioCx 400 = 400 / 3 := by
    rw [pitchFirstLocalMax.eq_def, audioCx_frames]
    simp [hf0m, meanQ]
  refine ⟨?_, hcode, hclaim⟩
  rw [hcode, hclaim]
  norm_num

/-- C1: for every input signal and sample rate (and any behaviour of the
external library primitives whose MFCC means respect the librosa row count
contract), the assembled feature vector has exactly 34 entries in the fixed
slot order; a failing MFCC extraction contributes a zero filled 13 slot
block, a failing spectral extraction contributes eight 0.0 slots, an empty
signal makes all nine statistics slots 0.0, and the total failure branch of
extract_all_features is a 34 element all zero vector rather than an
exception. -/
theorem c1_feature_vector_always_34 (F : FeatureLibs) (audio : List ℚ) (sr : Nat)
    (hm : ∀ a s n l, F.mfccMeans a s n = .ok l → l.length = n) :
    (extract_all_features F audio sr).length = 34 ∧
    (∀ e, F.mfccMeans audio sr 13 = .error e →
      extract_mfcc_features F audio sr 13 = List.replicate 13 0) ∧
    (∀ e, F.spectralSeries audio sr = .error e →
      extract_spectral_features F audio sr = ⟨0, 0, 0, 0, 0, 0, 0, 0⟩) ∧
    (audio = [] → extract_statistical_features F audio = ⟨0, 0, 0, 0, 0, 0, 0, 0, 0⟩) ∧
    extract_all_features_onError.length = 34 ∧
    (∀ x ∈ extract_all_features_onError, x = 0) := by
  have hm13 : (extract_mfcc_features F audio sr 13).length = 13 := by
    rw [extract_mfcc_features.eq_def]
    cases h : F.mfccMeans audio sr 13 with
    | ok l => exact hm _ _ _ _ h
    | error e => simp
  refine ⟨?_, ?_, ?_, ?_, by simp [extract_all_features_onError], ?_⟩
  · rw [extract_all_features]
    simp only [List.length_append, List.length_cons, List.length_nil, hm13]
  · intro e he
    rw [extract_mfcc_features.eq_def, he]
  · intro e he
    rw [extract_spectral_features.eq_def, he]
  · intro he
    rw [extract_statistical_features, if_pos he]
  · intro x hx
    simp only [extract_all_features_onError] at hx
    exact List.eq_of_mem_replicate hx

/-- C1 witness: the stub libraries respect the MFCC contract and the vector
extracted from the empty signal at 22050 Hz has exactly 34 entries. -/
theorem c1_feature_vector_always_34_witness :
    (∀ a s n l, stubFeatureLibs.mfccMeans a s n = .ok l → l.length = n) ∧
    (extract_all_features stubFeatureLibs [] 22050).length = 34 := by
  have hm : ∀ a s n l, stubFeatureLibs.mfccMeans a s n = .ok l → l.length = n := by
    intro a s n l h
    injection h with h
    rw [← h]
    simp
  exact ⟨hm, (c1_feature_vector_always_34 stubFeatureLibs [] 22050 hm).1⟩
